import Mathlib

/-!
Verification of the NomadRail itinerary engine (src/types.ts).

The TypeScript source is shallowly embedded as follows:
* JS numbers are modelled as `ℚ` (every value produced by the engine is an
  exact decimal, so rationals are faithful); `Math.round` / `Math.floor` /
  the JS `%` (truncated remainder) are modelled explicitly below.
* Fields that the edit dialog can hold as either a number or a raw input
  string are modelled by `JsVal`; `parseInt` / `parseFloat` restricted to
  plain decimal literals are modelled by `parseIntJs` / `parseFloatJs`
  (any other string is NaN, i.e. `none`), and the JS `||`-fallback on a
  parse result (NaN and 0 are both falsy) by `jsOrI` / `jsOrQ`.
* Time-of-day strings: every producer in the app (the checkpoint defaults
  "09:00"/"11:00" and `minutesToTime`, which zero-pads to two digits)
  yields either the empty string or a well-formed "HH:MM" string, so time
  strings are modelled by the inductive `TimeStr`; `.hm h m` stands for
  the padded string and `.empty` for `""`.  String `localeCompare` on such
  padded strings coincides with lexicographic comparison of the numeric
  pair, modelled by `timeLe`.
* `L.latLng(..).distanceTo(..) / 1000` (Leaflet's great-circle distance in
  km) is an external library call; it is abstracted as a parameter
  `dist : Checkpoint → Checkpoint → ℚ` supplied to every operation that
  regenerates segments.
-/

namespace NomadRail

/-- Truncation of a rational toward zero, as JS number-to-integer conversion
and the JS `%` operator use it. -/
def ratTrunc (q : ℚ) : ℤ := if 0 ≤ q then ⌊q⌋ else ⌈q⌉

/-- Model of JS `Math.round`: round half away from zero toward positive
infinity, i.e. `⌊x + 1/2⌋`. -/
def jsRound (q : ℚ) : ℤ := ⌊q + 1/2⌋

/-- Model of the JS `%` operator on numbers: truncated remainder
`x - y * trunc (x / y)`. -/
def jsRem (x y : ℚ) : ℚ := x - y * ratTrunc (x / y)

/-- A value held in an editor form field: either a JS number or a raw
string the user typed. -/
inductive JsVal where
  | num (q : ℚ)
  | str (s : String)
deriving DecidableEq

/-- Digits of a plain decimal numeral; `none` if empty or non-digit. -/
def decDigits? (cs : List Char) : Option ℕ :=
  if cs = [] then none
  else cs.foldl (fun acc c =>
    match acc with
    | none => none
    | some n => if c.isDigit then some (n * 10 + (c.toNat - 48)) else none)
    (some 0)

/-- Model of JS `parseInt` restricted to plain (optionally negated) decimal
integer literals; any other string yields NaN, modelled as `none`.  On a
number it truncates toward zero, as `parseInt` does. -/
def parseIntJs : JsVal → Option ℤ
  | .num q => some (ratTrunc q)
  | .str s =>
    match s.data with
    | '-' :: rest => (decDigits? rest).map (fun n => -(n : ℤ))
    | cs => (decDigits? cs).map (fun n => (n : ℤ))

/-- Model of JS `parseFloat` restricted to plain (optionally negated)
decimal literals with an optional fractional part; any other string yields
NaN, modelled as `none`. -/
def parseFloatJs : JsVal → Option ℚ :=
  let core : List Char → Option ℚ := fun cs =>
    match cs.splitOn '.' with
    | [intPart] => (decDigits? intPart).map (fun n => (n : ℚ))
    | [intPart, fracPart] =>
      match decDigits? intPart, decDigits? fracPart with
      | some n, some f => some ((n : ℚ) + (f : ℚ) / ((10 : ℚ) ^ fracPart.length))
      | _, _ => none
    | _ => none
  fun v =>
    match v with
    | .num q => some q
    | .str s =>
      match s.data with
      | '-' :: rest => (core rest).map (fun q => -q)
      | cs => core cs

/-- The JS expression `parseInt(v) || d`: both NaN (parse failure) and `0`
are falsy, so either falls back to the default `d`. -/
def jsOrI (o : Option ℤ) (d : ℤ) : ℤ :=
  match o with
  | none => d
  | some v => if v = 0 then d else v

/-- The JS expression `parseFloat(v) || d` on rationals; see `jsOrI`. -/
def jsOrQ (o : Option ℚ) (d : ℚ) : ℚ :=
  match o with
  | none => d
  | some v => if v = 0 then d else v

/-- A time-of-day string: `""` or a well-formed zero-padded "HH:MM". -/
inductive TimeStr where
  | empty
  | hm (h m : ℤ)
deriving DecidableEq

/-- The JS expression `a || b` on time strings: the empty string is falsy. -/
def jsOrT (a b : TimeStr) : TimeStr := if a = .empty then b else a

/-- Model of `timeToMinutes` (src/types.ts:151): the empty string parses to
0, and "HH:MM" to `h * 60 + m`. -/
def timeToMinutes : TimeStr → ℤ
  | .empty => 0
  | .hm h m => h * 60 + m

/-- Model of `minutesToTime` (src/types.ts:157): wrap modulo one day with
the JS `%` and `Math.floor`, then split into hours (`Math.floor(mins/60)`)
and minutes (`mins % 60`). -/
def minutesToTime (totalMinutes : ℚ) : TimeStr :=
  let mins : ℤ := ⌊jsRem totalMinutes (24 * 60)⌋
  .hm (Int.fdiv mins 60) (Int.tmod mins 60)

/-- Model of `calculateDuration` (src/types.ts:164): 0 when either side is
empty; otherwise add a day to the end when it is before the start, and
round `(end - start) / 60` hours to one decimal. -/
def calculateDuration (start stop : TimeStr) : ℚ :=
  if start = .empty ∨ stop = .empty then 0
  else
    let startMins := timeToMinutes start
    let endMins := timeToMinutes stop
    let endMins := if endMins < startMins then endMins + 1440 else endMins
    (jsRound (((endMins : ℚ) - (startMins : ℚ)) / 60 * 10) : ℚ) / 10

/-- Lexicographic order on time strings: the model of
`(a || "").localeCompare(b || "") ≤ 0` on the padded strings of this app
(the empty string sorts first). -/
def timeLe : TimeStr → TimeStr → Prop
  | .empty, _ => True
  | .hm _ _, .empty => False
  | .hm h m, .hm h' m' => h < h' ∨ (h = h' ∧ m ≤ m')

instance : DecidableRel timeLe := fun a b => by
  cases a <;> cases b <;> simp [timeLe] <;> infer_instance

/-- Transport modes (src/types.ts enum TransportMode). -/
inductive TransportMode where
  | TRAIN | BUS | AUTO | FERRY | WALK | TAXI
deriving DecidableEq

/-- Checkpoint categories (src/types.ts enum Category). -/
inductive Category where
  | STATION | TEMPLE | NATURE | MARKET | STAY | TRANSIT | FOOD
  | SIGHTSEEING | SHOPPING | CULTURE
deriving DecidableEq

/-- A checkpoint (src/types.ts interface Checkpoint).  `day` and `cost`
are always stored as coerced integers and `timeSpentHours` as a coerced
number, since every writer (`addCheckpoint` defaults and the sanitized
save path) coerces them. -/
structure Checkpoint where
  id : String
  name : String
  lat : ℚ
  lng : ℚ
  type : Category
  timeSpentHours : ℚ
  startTime : TimeStr
  endTime : TimeStr
  day : ℤ
  cost : ℤ
  notes : String
  city : String
deriving DecidableEq

/-- A route segment (src/types.ts interface RouteSegment).  `cost` is a
`JsVal` because the save path for a segment whose endpoints are present
stores the form's cost field without coercion. -/
structure RouteSegment where
  fromId : String
  toId : String
  mode : TransportMode
  distanceKm : ℤ
  durationHours : ℚ
  cost : JsVal
  safetyNote : String
deriving DecidableEq

/-- A trip (src/types.ts interface Trip). -/
structure Trip where
  id : String
  name : String
  checkpoints : List Checkpoint
  segments : List RouteSegment
  totalBudget : ℚ
  startDate : Option String
deriving DecidableEq

/-- Placeholder checkpoint used as the default for `List.getD` indexing. -/
def dfltCp : Checkpoint :=
  { id := "", name := "", lat := 0, lng := 0, type := .SIGHTSEEING,
    timeSpentHours := 0, startTime := .empty, endTime := .empty,
    day := 0, cost := 0, notes := "", city := "" }

/-- Placeholder segment used as the default for `List.getD` indexing. -/
def dfltSeg : RouteSegment :=
  { fromId := "", toId := "", mode := .TRAIN, distanceKm := 0,
    durationHours := 0, cost := .num 0, safetyNote := "" }

/-- The segment synthesized by `syncSegments` for an adjacent pair with no
surviving segment (src/types.ts:136-145).  `d` is the great-circle
distance in km between the two coordinates. -/
def synthSegment (d : ℚ) (cpFrom cpTo : Checkpoint) : RouteSegment :=
  { fromId := cpFrom.id
    toId := cpTo.id
    mode := if cpFrom.city = cpTo.city then .AUTO else .TRAIN
    distanceKm := jsRound d
    durationHours := max (1/2 : ℚ) ((jsRound (d / 30 * 10) : ℚ) / 10)
    cost := .num 0
    safetyNote := "" }

/-- Model of `syncSegments` (src/types.ts:127-149): walk the checkpoint
sequence pairwise; keep the first existing segment that connects the exact
(fromId, toId) pair, otherwise synthesize one. -/
def syncSegments (dist : Checkpoint → Checkpoint → ℚ) :
    List Checkpoint → List RouteSegment → List RouteSegment
  | cpFrom :: cpTo :: rest, existing =>
    (match existing.find? (fun s => decide (s.fromId = cpFrom.id ∧ s.toId = cpTo.id)) with
     | some s => s
     | none => synthSegment (dist cpFrom cpTo) cpFrom cpTo) ::
      syncSegments dist (cpTo :: rest) existing
  | _, _ => []

/-- The checkpoint comparator used inside one city group
(src/types.ts:359-362 and 445-448): ascending by day, ties broken by
`localeCompare` on the start times.  `cpLe a b` states that the JS
comparator returns a non-positive value on `(a, b)`. -/
def cpLe (a b : Checkpoint) : Prop :=
  a.day < b.day ∨ (a.day = b.day ∧ timeLe a.startTime b.startTime)

instance : DecidableRel cpLe := fun a b => by
  unfold cpLe; infer_instance

theorem timeLe_total (s t : TimeStr) : timeLe s t ∨ timeLe t s := by
  cases s <;> cases t <;> simp [timeLe] <;> omega

theorem timeLe_trans {s t u : TimeStr} (h1 : timeLe s t) (h2 : timeLe t u) : timeLe s u := by
  cases s <;> cases t <;> cases u <;> simp_all [timeLe] <;> omega

instance : IsTotal Checkpoint cpLe where
  total a b := by
    unfold cpLe
    rcases lt_trichotomy a.day b.day with h | h | h
    · exact Or.inl (Or.inl h)
    · rcases timeLe_total a.startTime b.startTime with ht | ht
      · exact Or.inl (Or.inr ⟨h, ht⟩)
      · exact Or.inr (Or.inr ⟨h.symm, ht⟩)
    · exact Or.inr (Or.inl h)

instance : IsTrans Checkpoint cpLe where
  trans a b c hab hbc := by
    rcases hab with h1 | ⟨h1, t1⟩ <;> rcases hbc with h2 | ⟨h2, t2⟩
    · exact Or.inl (h1.trans h2)
    · exact Or.inl (h2 ▸ h1)
    · exact Or.inl (h1 ▸ h2)
    · exact Or.inr ⟨h1.trans h2, timeLe_trans t1 t2⟩

/-- First-appearance deduplication, the model of
`Array.from(new Set(xs))` in JS insertion order. -/
def dedupFirst : List String → List String
  | [] => []
  | a :: l => a :: (dedupFirst l).filter (fun b => decide (b ≠ a))

/-- The regrouping performed after an insert or a checkpoint field edit
(src/types.ts:356-363 and 442-449): concatenate, per city in
first-appearance order, that city's checkpoints sorted by `(day,
startTime)`.  `List.insertionSort` with the non-strict comparator yields
the same list as the stable JS `Array.prototype.sort`. -/
def regroupCheckpoints (l : List Checkpoint) : List Checkpoint :=
  (dedupFirst (l.map (fun c => c.city))).flatMap
    (fun cName => List.insertionSort cpLe (l.filter (fun cp => decide (cp.city = cName))))

/-- The editor form for a checkpoint ("PIN" branch of `handleSave`):
a spread copy of the checkpoint in which the numeric inputs `day`,
`cost` and `timeSpentHours` may hold raw strings. -/
structure PinForm where
  id : String
  name : String
  lat : ℚ
  lng : ℚ
  type : Category
  timeSpentHours : JsVal
  startTime : TimeStr
  endTime : TimeStr
  day : JsVal
  cost : JsVal
  notes : String
  city : String
deriving DecidableEq

/-- The sanitized checkpoint built on save (src/types.ts:440):
`{ ...localForm, day: parseInt(localForm.day) || 1, cost:
parseInt(localForm.cost) || 0, timeSpentHours:
parseFloat(localForm.timeSpentHours) || 0 }`. -/
def sanitizePin (f : PinForm) : Checkpoint :=
  { id := f.id, name := f.name, lat := f.lat, lng := f.lng, type := f.type,
    timeSpentHours := jsOrQ (parseFloatJs f.timeSpentHours) 0,
    startTime := f.startTime, endTime := f.endTime,
    day := jsOrI (parseIntJs f.day) 1,
    cost := jsOrI (parseIntJs f.cost) 0,
    notes := f.notes, city := f.city }

/-- The editor form for a segment ("SEGMENT" branch of `handleSave`):
a spread copy of the segment in which the numeric inputs `durationHours`
and `cost` may hold raw strings. -/
structure SegForm where
  fromId : String
  toId : String
  mode : TransportMode
  distanceKm : ℤ
  durationHours : JsVal
  cost : JsVal
  safetyNote : String
deriving DecidableEq

/-- Map with the element index, the model of JS `array.map((x, idx) => ...)`. -/
def mapWithIndex (f : ℕ → α → β) : ℕ → List α → List β
  | _, [] => []
  | i, a :: l => f i a :: mapWithIndex f (i + 1) l

/-- Model of the trip updater run by `addCheckpoint` (src/types.ts:354-364):
append the new checkpoint, regroup by city and day/time, resync segments.
The caller-built `newCp` (defaults plus reverse-geocoded name/city) is a
parameter. -/
def insertCheckpoint (dist : Checkpoint → Checkpoint → ℚ) (newCp : Checkpoint)
    (prev : Trip) : Trip :=
  let reordered := regroupCheckpoints (prev.checkpoints ++ [newCp])
  { prev with checkpoints := reordered, segments := syncSegments dist reordered prev.segments }

/-- Model of `moveCheckpoint` (src/types.ts:381-390): swap the checkpoint
with its neighbour at `idx + delta`; no-op when the id is unknown
(`findIndex` returns -1) or the target index is out of bounds. -/
def moveCheckpoint (dist : Checkpoint → Checkpoint → ℚ) (id : String) (delta : ℤ)
    (prev : Trip) : Trip :=
  match prev.checkpoints.findIdx? (fun c => decide (c.id = id)) with
  | none => prev
  | some idx =>
    let newIdx : ℤ := (idx : ℤ) + delta
    if newIdx < 0 ∨ (prev.checkpoints.length : ℤ) ≤ newIdx then prev
    else
      let a := prev.checkpoints.getD idx dfltCp
      let b := prev.checkpoints.getD newIdx.toNat dfltCp
      let newCps := (prev.checkpoints.set idx b).set newIdx.toNat a
      { prev with checkpoints := newCps, segments := syncSegments dist newCps prev.segments }

/-- Model of `moveDestination` (src/types.ts:392-403).  The source guards
only `targetIdx` against the bounds of the city list; when `cityName` is
not a current city, `indexOf` returns -1 and the JS destructuring swap
writes a stray `-1` property (invisible to iteration) while storing
`undefined` into slot `targetIdx`.  The rebuilt city order is therefore a
`List (Option String)`, where `none` is the `undefined` slot that no
checkpoint's city matches. -/
def moveDestination (dist : Checkpoint → Checkpoint → ℚ) (cityName : String) (delta : ℤ)
    (prev : Trip) : Trip :=
  let cities := dedupFirst (prev.checkpoints.map (fun c => c.city))
  let cityIdx : ℤ := match cities.findIdx? (fun c => decide (c = cityName)) with
    | some i => (i : ℤ)
    | none => -1
  let targetIdx := cityIdx + delta
  if targetIdx < 0 ∨ (cities.length : ℤ) ≤ targetIdx then prev
  else
    let newCityOrder : List (Option String) :=
      if cityIdx < 0 then
        (cities.map some).set targetIdx.toNat none
      else
        let a := cities.getD cityIdx.toNat ""
        let b := cities.getD targetIdx.toNat ""
        ((cities.map some).set cityIdx.toNat (some b)).set targetIdx.toNat (some a)
    let reorderedCps := newCityOrder.flatMap (fun oc =>
      match oc with
      | some cName => prev.checkpoints.filter (fun cp => decide (cp.city = cName))
      | none => [])
    { prev with checkpoints := reorderedCps
                segments := syncSegments dist reorderedCps prev.segments }

/-- Model of `handleDeleteCheckpoint`'s trip updater (src/types.ts:477-481). -/
def deleteCheckpoint (dist : Checkpoint → Checkpoint → ℚ) (id : String) (prev : Trip) : Trip :=
  let newCheckpoints := prev.checkpoints.filter (fun c => decide (c.id ≠ id))
  { prev with checkpoints := newCheckpoints
              segments := syncSegments dist newCheckpoints prev.segments }

/-- Model of `handleDeleteDestination`'s trip updater (src/types.ts:485-489). -/
def deleteDestination (dist : Checkpoint → Checkpoint → ℚ) (cityName : String)
    (prev : Trip) : Trip :=
  let newCheckpoints := prev.checkpoints.filter (fun c => decide (c.city ≠ cityName))
  { prev with checkpoints := newCheckpoints
              segments := syncSegments dist newCheckpoints prev.segments }

/-- Model of the "PIN" branch of `handleSave` (src/types.ts:439-450):
replace the edited checkpoint by the sanitized form, regroup, resync. -/
def updateCheckpointFields (dist : Checkpoint → Checkpoint → ℚ) (cpId : String)
    (f : PinForm) (prev : Trip) : Trip :=
  let sanitized := sanitizePin f
  let newCps := prev.checkpoints.map (fun c => if c.id = cpId then sanitized else c)
  let finalCps := regroupCheckpoints newCps
  { prev with checkpoints := finalCps, segments := syncSegments dist finalCps prev.segments }

/-- The segment stored by the "SEGMENT" branch of `handleSave` when both
endpoints were located (src/types.ts:469): `{ ...localForm, durationHours }`
— only the duration is coerced; the cost field keeps the raw form value. -/
def segFromFormA (f : SegForm) (durationHours : ℚ) : RouteSegment :=
  { fromId := f.fromId, toId := f.toId, mode := f.mode, distanceKm := f.distanceKm,
    durationHours := durationHours, cost := f.cost, safetyNote := f.safetyNote }

/-- The segment stored by the "SEGMENT" branch of `handleSave` when an
endpoint is missing (src/types.ts:471): cost and duration are both
coerced. -/
def segFromFormB (f : SegForm) : RouteSegment :=
  { fromId := f.fromId, toId := f.toId, mode := f.mode, distanceKm := f.distanceKm,
    durationHours := jsOrQ (parseFloatJs f.durationHours) 0,
    cost := .num ((jsOrI (parseIntJs f.cost) 0 : ℤ) : ℚ),
    safetyNote := f.safetyNote }

/-- Model of the "SEGMENT" branch of `handleSave` (src/types.ts:452-472):
when both endpoints are found, cascade the arrival time and day of the
"to" checkpoint and shift the days of everything after it, then merge the
form into the matching segment; otherwise only merge (with coercion). -/
def updateSegmentFields (fromId toId : String) (f : SegForm) (prev : Trip) : Trip :=
  let durationHours := jsOrQ (parseFloatJs f.durationHours) 0
  match prev.checkpoints.findIdx? (fun c => decide (c.id = fromId)),
        prev.checkpoints.findIdx? (fun c => decide (c.id = toId)) with
  | some fromIdx, some toIdx =>
    let fromCp := prev.checkpoints.getD fromIdx dfltCp
    let toCp := prev.checkpoints.getD toIdx dfltCp
    let startMins := timeToMinutes (jsOrT fromCp.endTime (jsOrT fromCp.startTime (.hm 9 0)))
    let totalMins : ℚ := (startMins : ℚ) + durationHours * 60
    let arrivalTime := minutesToTime totalMins
    let newArrivalDay : ℤ := fromCp.day + ⌊totalMins / 1440⌋
    let dayShift := newArrivalDay - toCp.day
    let shiftedCps := mapWithIndex (fun idx cp =>
      if idx = toIdx then
        { cp with day := newArrivalDay
                  startTime := arrivalTime
                  endTime := minutesToTime (totalMins + cp.timeSpentHours * 60) }
      else if toIdx < idx then { cp with day := cp.day + dayShift }
      else cp) 0 prev.checkpoints
    { prev with checkpoints := shiftedCps
                segments := prev.segments.map (fun s =>
                  if s.fromId = fromId ∧ s.toId = toId then segFromFormA f durationHours else s) }
  | _, _ =>
    { prev with segments := prev.segments.map (fun s =>
        if s.fromId = fromId ∧ s.toId = toId then segFromFormB f else s) }

/-- The trip-level engine operations of §4.1 of the spec, as dispatched by
the presentation layer. -/
inductive EngineOp where
  | insertCp (newCp : Checkpoint)
  | moveCp (id : String) (delta : ℤ)
  | moveDest (cityName : String) (delta : ℤ)
  | deleteCp (id : String)
  | deleteDest (cityName : String)
  | updatePin (cpId : String) (f : PinForm)
  | updateSeg (fromId toId : String) (f : SegForm)

/-- Dispatch of an engine operation on one trip. -/
def applyEngineOp (dist : Checkpoint → Checkpoint → ℚ) : EngineOp → Trip → Trip
  | .insertCp newCp => insertCheckpoint dist newCp
  | .moveCp id delta => moveCheckpoint dist id delta
  | .moveDest cityName delta => moveDestination dist cityName delta
  | .deleteCp id => deleteCheckpoint dist id
  | .deleteDest cityName => deleteDestination dist cityName
  | .updatePin cpId f => updateCheckpointFields dist cpId f
  | .updateSeg fromId toId f => updateSegmentFields fromId toId f

/-- A segment edit opened from the UI always carries the ids of the edited
segment inside the form (`openSegmentEditor` copies the segment into the
form); operations obtained that way are well-formed. -/
def EngineOp.wfForm : EngineOp → Prop
  | .updateSeg fromId toId f => f.fromId = fromId ∧ f.toId = toId
  | _ => True

/-- The application state owned by the presentation layer: the trip list,
the active trip id, and the undo/redo history stacks of whole trip-list
snapshots (src/types.ts:219-227). -/
structure AppState where
  trips : List Trip
  activeTripId : String
  past : List (List Trip)
  future : List (List Trip)
deriving DecidableEq

/-- The JS `array.slice(-n)`: the last `n` elements. -/
def sliceLast (n : ℕ) (l : List α) : List α := l.drop (l.length - n)

/-- Model of `recordAction` (src/types.ts:278-281): push the current trip
list onto the undo stack, keeping only the most recent 24 older entries
(`prev.slice(-24)`), and clear the redo stack. -/
def recordAction (s : AppState) : AppState :=
  { s with past := sliceLast 24 s.past ++ [s.trips]
           future := [] }

/-- Model of `undo` (src/types.ts:283-289). -/
def undo (s : AppState) : AppState :=
  if s.past.length = 0 then s
  else
    { s with trips := s.past.getLastD []
             future := s.trips :: s.future
             past := s.past.dropLast }

/-- Model of `redo` (src/types.ts:291-297). -/
def redo (s : AppState) : AppState :=
  match s.future with
  | [] => s
  | next :: rest =>
    { s with trips := next
             past := s.past ++ [s.trips]
             future := rest }

/-- The trip shown in the UI: `trips.find(t => t.id === activeTripId) ||
trips[0]` (src/types.ts:224). -/
def activeTrip (s : AppState) : Option Trip :=
  match s.trips.find? (fun t => decide (t.id = s.activeTripId)) with
  | some t => some t
  | none => s.trips.head?

/-- Model of `updateActiveTrip` (src/types.ts:341-344): record history,
then rewrite the trip whose id is active through the updater. -/
def updateActiveTrip (f : Trip → Trip) (s : AppState) : AppState :=
  let s1 := recordAction s
  { s1 with trips := s1.trips.map (fun t => if t.id = s.activeTripId then f t else t) }

/-- The blank trip template (constants.ts INITIAL_TRIP). -/
def initialTrip (id name : String) : Trip :=
  { id := id, name := name, checkpoints := [], segments := [],
    totalBudget := 0, startDate := none }

/-- Model of `createNewTrip` (src/types.ts:319-325); the random id is a
parameter. -/
def createNewTrip (newId : String) (s : AppState) : AppState :=
  let s1 := recordAction s
  { s1 with trips := s1.trips ++ [initialTrip newId ("Adventure #" ++ toString (s.trips.length + 1))]
            activeTripId := newId }

/-- Model of `deleteTrip` (src/types.ts:327-333): rejected outright on a
single-trip list, otherwise record and filter; the active trip falls back
to the first survivor. -/
def deleteTrip (id : String) (s : AppState) : AppState :=
  if s.trips.length = 1 then s
  else
    let s1 := recordAction s
    let newTrips := s1.trips.filter (fun t => decide (t.id ≠ id))
    { s1 with trips := newTrips
              activeTripId := if s.activeTripId = id then (newTrips.headD (initialTrip "" "")).id
                              else s.activeTripId }

/-- Model of `renameActiveTrip` (src/types.ts:335-339). -/
def renameActiveTrip (newName : String) (s : AppState) : AppState :=
  let s1 := recordAction s
  { s1 with trips := s1.trips.map (fun t =>
      if t.id = s.activeTripId then { t with name := newName } else t) }

/-- Model of the checkpoint built by `addCheckpoint` (src/types.ts:346-353)
before it hands off to the trip updater: defaults plus the day of the last
checkpoint of the active trip. -/
def buildNewCheckpoint (cpId nm : String) (lat lng : ℚ) (city : String)
    (targetCity : Option String) (t : Trip) : Checkpoint :=
  let lastDay := match t.checkpoints.getLast? with
    | some c => c.day
    | none => 1
  { id := cpId, name := nm, lat := lat, lng := lng, type := .SIGHTSEEING,
    timeSpentHours := 2, startTime := .hm 9 0, endTime := .hm 11 0,
    day := lastDay, cost := 0, notes := "",
    city := match targetCity with
      | some c => if c = "" then city else c
      | none => city }

/-- The application-level mutating operations reachable from the UI.  The
random ids that `generateId()` would produce are parameters. -/
inductive AppOp where
  | createTrip (newId : String)
  | deleteTripOp (id : String)
  | renameTrip (newName : String)
  | setStartDate (d : String)
  | addCp (cpId nm : String) (lat lng : ℚ) (city : String) (targetCity : Option String)
  | engine (op : EngineOp)

/-- Dispatch of an application-level operation.  `addCp` reads the active
trip to compute the new checkpoint's defaults; on an empty trip list the
source would throw before touching state, modelled as the unchanged
state. -/
def applyOp (dist : Checkpoint → Checkpoint → ℚ) : AppOp → AppState → AppState
  | .createTrip newId => createNewTrip newId
  | .deleteTripOp id => deleteTrip id
  | .renameTrip newName => renameActiveTrip newName
  | .setStartDate d => updateActiveTrip (fun t => { t with startDate := some d })
  | .addCp cpId nm lat lng city targetCity => fun s =>
    match activeTrip s with
    | none => s
    | some t => updateActiveTrip (insertCheckpoint dist (buildNewCheckpoint cpId nm lat lng city targetCity t)) s
  | .engine op => updateActiveTrip (applyEngineOp dist op)

/-! ### Helper lemmas about the embedded operations -/

theorem syncSegments_length (dist : Checkpoint → Checkpoint → ℚ)
    (segs : List RouteSegment) :
    ∀ cps : List Checkpoint, (syncSegments dist cps segs).length = cps.length - 1
  | [] => rfl
  | [_] => rfl
  | a :: b :: rest => by
    have ih := syncSegments_length dist segs (b :: rest)
    simp only [syncSegments, List.length_cons] at ih ⊢
    omega

theorem syncSegments_getD (dist : Checkpoint → Checkpoint → ℚ)
    (segs : List RouteSegment) :
    ∀ (cps : List Checkpoint) (i : ℕ), i + 1 < cps.length →
      (syncSegments dist cps segs).getD i dfltSeg =
        (match segs.find? (fun s => decide (s.fromId = (cps.getD i dfltCp).id ∧
            s.toId = (cps.getD (i + 1) dfltCp).id)) with
         | some s => s
         | none => synthSegment (dist (cps.getD i dfltCp) (cps.getD (i + 1) dfltCp))
             (cps.getD i dfltCp) (cps.getD (i + 1) dfltCp))
  | a :: b :: rest, 0, _ => by
    simp [syncSegments]
  | a :: b :: rest, i + 1, h => by
    have ih := syncSegments_getD dist segs (b :: rest) i (by
      simp only [List.length_cons] at h ⊢; omega)
    simpa [syncSegments] using ih

theorem find?_unique_eq_some {α : Type _} {p : α → Bool} {l : List α} {a : α}
    (ha : a ∈ l) (hpa : p a = true) (huniq : ∀ x ∈ l, p x = true → x = a) :
    l.find? p = some a := by
  induction l with
  | nil => cases ha
  | cons x xs ih =>
    by_cases hx : p x = true
    · have hxa : x = a := huniq x (List.mem_cons_self x xs) hx
      subst hxa
      exact List.find?_cons_of_pos _ hx
    · have ha' : a ∈ xs := by
        rcases List.mem_cons.mp ha with h | h
        · exact absurd (h ▸ hpa) hx
        · exact h
      rw [List.find?_cons_of_neg _ hx]
      exact ih ha' (fun y hy hpy => huniq y (List.mem_cons_of_mem _ hy) hpy)

theorem mapWithIndex_length (f : ℕ → α → β) :
    ∀ (n : ℕ) (l : List α), (mapWithIndex f n l).length = l.length
  | _, [] => rfl
  | n, a :: l => by simp [mapWithIndex, mapWithIndex_length f (n + 1) l]

theorem mapWithIndex_getD (f : ℕ → α → β) (d : β) (d' : α) :
    ∀ (n : ℕ) (l : List α) (i : ℕ), i < l.length →
      (mapWithIndex f n l).getD i d = f (n + i) (l.getD i d')
  | n, [], i, h => by simp at h
  | n, a :: l, 0, _ => by simp [mapWithIndex]
  | n, a :: l, i + 1, h => by
    have ih := mapWithIndex_getD f d d' (n + 1) l i (by simp at h; omega)
    simp only [mapWithIndex, List.getD_cons_succ]
    rw [ih]; ring_nf

theorem getD_map_of_lt (f : α → β) (d : β) (d' : α) :
    ∀ (l : List α) (i : ℕ), i < l.length → (l.map f).getD i d = f (l.getD i d')
  | [], i, h => by simp at h
  | a :: l, 0, _ => by simp
  | a :: l, i + 1, h => by
    simp only [List.map_cons, List.getD_cons_succ]
    exact getD_map_of_lt f d d' l i (by simp at h; omega)

theorem dedupFirst_nodup : ∀ l : List String, (dedupFirst l).Nodup
  | [] => List.nodup_nil
  | a :: l => by
    simp only [dedupFirst, List.nodup_cons]
    refine ⟨fun hmem => ?_, (dedupFirst_nodup l).filter _⟩
    have := List.of_mem_filter hmem
    simp at this

theorem mem_dedupFirst {c : String} : ∀ {l : List String}, c ∈ dedupFirst l ↔ c ∈ l
  | [] => Iff.rfl
  | a :: l => by
    simp only [dedupFirst, List.mem_cons, List.mem_filter, mem_dedupFirst (l := l)]
    by_cases hca : c = a
    · simp [hca]
    · simp [hca]

/-! ### The city-grouping invariant -/

/-- All checkpoints sharing a city occupy a contiguous index range: no
ordered triple `a … b … c` has `a` and `c` in one city and `b` in
another. -/
def cityContiguous (l : List Checkpoint) : Prop :=
  ∀ a b c : Checkpoint, List.Sublist [a, b, c] l → a.city = c.city → b.city = a.city

/-- Within one city, checkpoints appear in non-decreasing
`(day, startTime)` order. -/
def cityGroupSorted (l : List Checkpoint) : Prop :=
  l.Pairwise (fun a b => a.city = b.city → cpLe a b)

/-- The invariant the spec states for the checkpoint sequence. -/
def cityInv (l : List Checkpoint) : Prop := cityContiguous l ∧ cityGroupSorted l

theorem cityContiguous_of_sublist {l l' : List Checkpoint}
    (hsub : l'.Sublist l) (h : cityContiguous l) : cityContiguous l' :=
  fun a b c hs hac => h a b c (hs.trans hsub) hac

theorem cityGroupSorted_of_sublist {l l' : List Checkpoint}
    (hsub : l'.Sublist l) (h : cityGroupSorted l) : cityGroupSorted l' :=
  h.sublist hsub

theorem cityContiguous_flatMap (B : String → List Checkpoint)
    (hB : ∀ c x, x ∈ B c → x.city = c) :
    ∀ cs : List String, cs.Nodup → cityContiguous (cs.flatMap B)
  | [], _ => by
    intro a b c hs _
    have := hs.length_le
    simp at this
  | c0 :: cs, hnd => by
    have hc0 : c0 ∉ cs := (List.nodup_cons.mp hnd).1
    have hnd' : cs.Nodup := (List.nodup_cons.mp hnd).2
    have ih := cityContiguous_flatMap B hB cs hnd'
    intro a b c hs hac
    rw [List.flatMap_cons] at hs
    rcases List.sublist_append_iff.mp hs with ⟨l1, l2, heq, h1, h2⟩
    have hmem_flat : ∀ x : Checkpoint, x ∈ cs.flatMap B → x.city ∈ cs := by
      intro x hx
      rcases List.mem_flatMap.mp hx with ⟨cx, hcx, hxB⟩
      rw [hB cx x hxB]; exact hcx
    rcases l1 with _ | ⟨x, _ | ⟨y, _ | ⟨z, _ | ⟨w, l1⟩⟩⟩⟩
    · simp only [List.nil_append] at heq
      subst heq
      exact ih a b c h2 hac
    · simp only [List.cons_append, List.nil_append, List.cons.injEq] at heq
      obtain ⟨hxa, heq2⟩ := heq
      subst hxa
      subst heq2
      have haB : a ∈ B c0 := h1.subset (by simp)
      have hcmem : c ∈ cs.flatMap B := h2.subset (by simp)
      have hccs : c.city ∈ cs := hmem_flat c hcmem
      rw [← hac, hB c0 a haB] at hccs
      exact absurd hccs hc0
    · simp only [List.cons_append, List.nil_append, List.cons.injEq] at heq
      obtain ⟨hxa, hyb, heq2⟩ := heq
      subst hxa; subst hyb
      have haB : a ∈ B c0 := h1.subset (by simp)
      have hbB : b ∈ B c0 := h1.subset (by simp)
      rw [hB c0 a haB, hB c0 b hbB]
    · simp only [List.cons_append, List.nil_append, List.cons.injEq] at heq
      obtain ⟨hxa, hyb, hzc, heq2⟩ := heq
      subst hxa; subst hyb
      have haB : a ∈ B c0 := h1.subset (by simp)
      have hbB : b ∈ B c0 := h1.subset (by simp)
      rw [hB c0 a haB, hB c0 b hbB]
    · have := congrArg List.length heq
      simp at this

theorem cityGroupSorted_flatMap (B : String → List Checkpoint)
    (hB : ∀ c x, x ∈ B c → x.city = c)
    (hsort : ∀ c, (B c).Pairwise cpLe) :
    ∀ cs : List String, cs.Nodup → cityGroupSorted (cs.flatMap B)
  | [], _ => by
    rw [List.flatMap_nil]
    exact List.Pairwise.nil
  | c0 :: cs, hnd => by
    have hc0 : c0 ∉ cs := (List.nodup_cons.mp hnd).1
    have hnd' : cs.Nodup := (List.nodup_cons.mp hnd).2
    have ih := cityGroupSorted_flatMap B hB hsort cs hnd'
    rw [cityGroupSorted, List.flatMap_cons, List.pairwise_append]
    refine ⟨?_, ih, ?_⟩
    · exact (hsort c0).imp (fun {a b} (hab : cpLe a b) => fun _ => hab)
    · intro a ha b hb hab
      exfalso
      rcases List.mem_flatMap.mp hb with ⟨cb, hcb, hbB⟩
      rw [hB c0 a ha, hB cb b hbB] at hab
      exact hc0 (hab ▸ hcb)

theorem mem_insertionSort_cpLe {a : Checkpoint} {l : List Checkpoint} :
    a ∈ List.insertionSort cpLe l ↔ a ∈ l :=
  (List.perm_insertionSort cpLe l).mem_iff

theorem cityInv_regroup (l : List Checkpoint) : cityInv (regroupCheckpoints l) := by
  have hB : ∀ (c : String) (x : Checkpoint),
      x ∈ List.insertionSort cpLe (l.filter (fun cp => decide (cp.city = c))) → x.city = c := by
    intro c x hx
    have := List.of_mem_filter (mem_insertionSort_cpLe.mp hx)
    simpa using this
  constructor
  · exact cityContiguous_flatMap _ hB _ (dedupFirst_nodup _)
  · refine cityGroupSorted_flatMap _ hB ?_ _ (dedupFirst_nodup _)
    intro c
    exact List.sorted_insertionSort cpLe _

/-! ### The segment invariant -/

/-- The derived-segment invariant: one segment per adjacent checkpoint
pair (`len - 1` segments, which is `max(0, len - 1)` in natural-number
subtraction), segment `i` running from `checkpoints[i]` to
`checkpoints[i+1]`. -/
def segInv (t : Trip) : Prop :=
  t.segments.length = t.checkpoints.length - 1 ∧
  ∀ i, i + 1 < t.checkpoints.length →
    (t.segments.getD i dfltSeg).fromId = (t.checkpoints.getD i dfltCp).id ∧
    (t.segments.getD i dfltSeg).toId = (t.checkpoints.getD (i + 1) dfltCp).id

theorem segInv_of_sync (dist : Checkpoint → Checkpoint → ℚ)
    (segsOld : List RouteSegment) (t : Trip)
    (h : t.segments = syncSegments dist t.checkpoints segsOld) : segInv t := by
  constructor
  · rw [h, syncSegments_length]
  · intro i hi
    rw [h, syncSegments_getD dist segsOld t.checkpoints i hi]
    rcases hf : segsOld.find? (fun s => decide (s.fromId = (t.checkpoints.getD i dfltCp).id ∧
        s.toId = (t.checkpoints.getD (i + 1) dfltCp).id)) with _ | s
    · simp only [hf]
      exact ⟨rfl, rfl⟩
    · simp only [hf]
      have hp := List.find?_some hf
      simp only [decide_eq_true_eq] at hp
      exact hp

theorem segInv_preserved_of_maps (t t' : Trip)
    (hcl : t'.checkpoints.length = t.checkpoints.length)
    (hcid : ∀ i, i < t.checkpoints.length →
      (t'.checkpoints.getD i dfltCp).id = (t.checkpoints.getD i dfltCp).id)
    (hsl : t'.segments.length = t.segments.length)
    (hsid : ∀ i, i < t.segments.length →
      (t'.segments.getD i dfltSeg).fromId = (t.segments.getD i dfltSeg).fromId ∧
      (t'.segments.getD i dfltSeg).toId = (t.segments.getD i dfltSeg).toId)
    (h : segInv t) : segInv t' := by
  obtain ⟨hlen, hids⟩ := h
  refine ⟨by omega, ?_⟩
  intro i hi
  rw [hcl] at hi
  have hseg : i < t.segments.length := by omega
  obtain ⟨h1, h2⟩ := hsid i hseg
  obtain ⟨h3, h4⟩ := hids i hi
  rw [h1, h2, hcid i (by omega), hcid (i + 1) hi, h3, h4]
  exact ⟨rfl, rfl⟩

/-- C1: after any engine operation (insert, move checkpoint, move
destination, delete checkpoint, delete destination, checkpoint field
update, segment field update), the trip has exactly `max(0,
len(checkpoints) - 1)` segments and segment `i` runs from
`checkpoints[i]` to `checkpoints[i+1]`.  The operations that regenerate
segments establish the invariant outright; the segment field update
(whose form, as opened from the UI, carries the edited pair's ids)
preserves it. -/
theorem C1_segment_count_and_adjacency (dist : Checkpoint → Checkpoint → ℚ)
    (op : EngineOp) (t : Trip) (hwf : op.wfForm) (hinv : segInv t) :
    segInv (applyEngineOp dist op t) := by
  cases op with
  | insertCp newCp => exact segInv_of_sync dist t.segments _ rfl
  | deleteCp id => exact segInv_of_sync dist t.segments _ rfl
  | deleteDest cityName => exact segInv_of_sync dist t.segments _ rfl
  | updatePin cpId f => exact segInv_of_sync dist t.segments _ rfl
  | moveCp id delta =>
    simp only [applyEngineOp, moveCheckpoint]
    rcases hidx : t.checkpoints.findIdx? (fun c => decide (c.id = id)) with _ | idx
    · simp only [hidx]
      exact hinv
    · simp only [hidx]
      split
      · exact hinv
      · exact segInv_of_sync dist t.segments _ rfl
  | moveDest cityName delta =>
    simp only [applyEngineOp, moveDestination]
    split
    · exact hinv
    · exact segInv_of_sync dist t.segments _ rfl
  | updateSeg fid tid f =>
    obtain ⟨hw1, hw2⟩ := hwf
    simp only [applyEngineOp, updateSegmentFields]
    have hsegmap : ∀ (g : SegForm → RouteSegment), (g f).fromId = f.fromId →
        (g f).toId = f.toId →
        ∀ i, i < t.segments.length →
        ((t.segments.map (fun s =>
            if s.fromId = fid ∧ s.toId = tid then g f else s)).getD i dfltSeg).fromId =
          (t.segments.getD i dfltSeg).fromId ∧
        ((t.segments.map (fun s =>
            if s.fromId = fid ∧ s.toId = tid then g f else s)).getD i dfltSeg).toId =
          (t.segments.getD i dfltSeg).toId := by
      intro g hg1 hg2 i hi
      rw [getD_map_of_lt _ _ dfltSeg _ i hi]
      by_cases hc : (t.segments.getD i dfltSeg).fromId = fid ∧
          (t.segments.getD i dfltSeg).toId = tid
      · rw [if_pos hc, hg1, hg2, hw1, hw2, hc.1, hc.2]
        exact ⟨rfl, rfl⟩
      · rw [if_neg hc]
        exact ⟨rfl, rfl⟩
    rcases h1 : t.checkpoints.findIdx? (fun c => decide (c.id = fid)) with _ | fromIdx <;>
      rcases h2 : t.checkpoints.findIdx? (fun c => decide (c.id = tid)) with _ | toIdx <;>
      simp only [h1, h2]
    · refine segInv_preserved_of_maps t _ rfl (fun i _ => rfl) (by simp) ?_ hinv
      exact hsegmap segFromFormB rfl rfl
    · refine segInv_preserved_of_maps t _ rfl (fun i _ => rfl) (by simp) ?_ hinv
      exact hsegmap segFromFormB rfl rfl
    · refine segInv_preserved_of_maps t _ rfl (fun i _ => rfl) (by simp) ?_ hinv
      exact hsegmap segFromFormB rfl rfl
    · refine segInv_preserved_of_maps t _
        (mapWithIndex_length _ 0 _) ?_ (by simp) ?_ hinv
      · intro i hi
        rw [mapWithIndex_getD _ _ dfltCp 0 _ i hi]
        split
        · rfl
        · split
          · rfl
          · rfl
      · exact hsegmap (fun f0 => segFromFormA f0
          (jsOrQ (parseFloatJs f0.durationHours) 0)) rfl rfl

/-- A sample checkpoint (concrete instantiations in witnesses). -/
def sampleCp (cid cty : String) : Checkpoint := { dfltCp with id := cid, city := cty }


/-- C2: when segment regeneration runs over a checkpoint order in which the
pair `(A, B)` is adjacent at position `i` and the old segment list contains
a segment connecting exactly `(A, B)` (uniquely, as the invariant
guarantees), the regenerated list keeps that very segment unchanged at
position `i` — mode, distance, duration, cost and safety note included. -/
theorem C2_segment_preservation (dist : Checkpoint → Checkpoint → ℚ)
    (cps : List Checkpoint) (segs : List RouteSegment) (s : RouteSegment) (i : ℕ)
    (hi : i + 1 < cps.length)
    (hmem : s ∈ segs)
    (hfrom : s.fromId = (cps.getD i dfltCp).id)
    (hto : s.toId = (cps.getD (i + 1) dfltCp).id)
    (huniq : ∀ s' ∈ segs, s'.fromId = (cps.getD i dfltCp).id →
      s'.toId = (cps.getD (i + 1) dfltCp).id → s' = s) :
    (syncSegments dist cps segs).getD i dfltSeg = s ∧
    ((syncSegments dist cps segs).getD i dfltSeg).mode = s.mode ∧
    ((syncSegments dist cps segs).getD i dfltSeg).distanceKm = s.distanceKm ∧
    ((syncSegments dist cps segs).getD i dfltSeg).durationHours = s.durationHours ∧
    ((syncSegments dist cps segs).getD i dfltSeg).cost = s.cost ∧
    ((syncSegments dist cps segs).getD i dfltSeg).safetyNote = s.safetyNote := by
  have hf : segs.find? (fun s' => decide (s'.fromId = (cps.getD i dfltCp).id ∧
      s'.toId = (cps.getD (i + 1) dfltCp).id)) = some s := by
    refine find?_unique_eq_some hmem (by simp [hfrom, hto]) ?_
    intro x hx hpx
    simp only [decide_eq_true_eq] at hpx
    exact huniq x hx hpx.1 hpx.2
  have hget : (syncSegments dist cps segs).getD i dfltSeg = s := by
    rw [syncSegments_getD dist segs cps i hi, hf]
  exact ⟨hget, by rw [hget], by rw [hget], by rw [hget], by rw [hget], by rw [hget]⟩

/-- C2 witness: a user-edited ferry segment between the still-adjacent
checkpoints a and b survives a resync verbatim. -/
theorem C2_segment_preservation_witness :
    (let s : RouteSegment := { fromId := "a"
                               toId := "b"
                               mode := .FERRY
                               distanceKm := 5
                               durationHours := 7
                               cost := .num 120
                               safetyNote := "night crossing" };
     s ∈ [s] ∧
     (syncSegments (fun _ _ => 3) [sampleCp "a" "X", sampleCp "b" "Y"] [s]).getD 0 dfltSeg = s) := by
  refine ⟨List.mem_singleton_self _, ?_⟩
  refine (C2_segment_preservation (fun _ _ => 3) [sampleCp "a" "X", sampleCp "b" "Y"] _ _ 0
    (by simp) (List.mem_singleton_self _) rfl rfl ?_).1
  intro s' hs' _ _
  simpa using hs'

/-- C3: for an adjacent pair with no surviving segment, synthesis is
deterministic: distance is the supplied great-circle km distance rounded
to the nearest integer; the mode is auto-rickshaw for a same-city pair and
train otherwise; the duration is `max(0.5, round1(distance / 30))` hours;
cost 0; empty safety note. -/
theorem C3_segment_synthesis (dist : Checkpoint → Checkpoint → ℚ)
    (cps : List Checkpoint) (segs : List RouteSegment) (i : ℕ)
    (hi : i + 1 < cps.length)
    (hnone : ∀ s ∈ segs, ¬(s.fromId = (cps.getD i dfltCp).id ∧
      s.toId = (cps.getD (i + 1) dfltCp).id)) :
    (syncSegments dist cps segs).getD i dfltSeg =
      synthSegment (dist (cps.getD i dfltCp) (cps.getD (i + 1) dfltCp))
        (cps.getD i dfltCp) (cps.getD (i + 1) dfltCp) ∧
    ((syncSegments dist cps segs).getD i dfltSeg).mode =
      (if (cps.getD i dfltCp).city = (cps.getD (i + 1) dfltCp).city
       then TransportMode.AUTO else TransportMode.TRAIN) ∧
    ((syncSegments dist cps segs).getD i dfltSeg).distanceKm =
      jsRound (dist (cps.getD i dfltCp) (cps.getD (i + 1) dfltCp)) ∧
    ((syncSegments dist cps segs).getD i dfltSeg).durationHours =
      max (1/2 : ℚ)
        ((jsRound (dist (cps.getD i dfltCp) (cps.getD (i + 1) dfltCp) / 30 * 10) : ℚ) / 10) ∧
    ((syncSegments dist cps segs).getD i dfltSeg).cost = .num 0 ∧
    ((syncSegments dist cps segs).getD i dfltSeg).safetyNote = "" := by
  have hf : segs.find? (fun s' => decide (s'.fromId = (cps.getD i dfltCp).id ∧
      s'.toId = (cps.getD (i + 1) dfltCp).id)) = none := by
    rw [List.find?_eq_none]
    intro x hx
    simpa using hnone x hx
  have hget : (syncSegments dist cps segs).getD i dfltSeg =
      synthSegment (dist (cps.getD i dfltCp) (cps.getD (i + 1) dfltCp))
        (cps.getD i dfltCp) (cps.getD (i + 1) dfltCp) := by
    rw [syncSegments_getD dist segs cps i hi, hf]
  refine ⟨hget, ?_, ?_, ?_, ?_, ?_⟩ <;> rw [hget] <;> rfl

/-- C3 witness: the spec's concrete example — two same-city checkpoints 2
km apart with no surviving segment synthesize an auto-rickshaw segment of
distance 2, duration 0.5 h, cost 0. -/
theorem C3_segment_synthesis_witness :
    (let sy := (syncSegments (fun _ _ => 2) [sampleCp "a" "X", sampleCp "b" "X"] []).getD 0 dfltSeg;
     sy.mode = TransportMode.AUTO ∧ sy.distanceKm = 2 ∧
     sy.durationHours = 1/2 ∧ sy.cost = .num 0 ∧ sy.safetyNote = "") := by
  have h := C3_segment_synthesis (fun _ _ => 2) [sampleCp "a" "X", sampleCp "b" "X"] [] 0
    (by simp) (by simp)
  obtain ⟨-, hmode, hdist, hdur, hcost, hnote⟩ := h
  refine ⟨?_, ?_, ?_, ?_, ?_⟩
  · rw [hmode]
    simp [sampleCp]
  · rw [hdist]
    show jsRound 2 = 2
    rw [jsRound]
    norm_num
  · rw [hdur]
    have h1 : jsRound ((2 : ℚ) / 30 * 10) = 1 := by
      rw [jsRound]
      norm_num
    rw [h1]
    norm_num
  · exact hcost
  · exact hnote

/-- The operations C4 covers: insert, checkpoint field update, checkpoint
delete and destination delete (raw moves are explicit overrides and are
excluded by the claim itself). -/
def sortMaintainingOp : EngineOp → Prop
  | .insertCp _ => True
  | .updatePin _ _ => True
  | .deleteCp _ => True
  | .deleteDest _ => True
  | _ => False

/-- A trip literal used by witnesses. -/
def mkTrip (cps : List Checkpoint) (segs : List RouteSegment) : Trip :=
  { id := "t1", name := "Trip", checkpoints := cps, segments := segs,
    totalBudget := 0, startDate := none }

/-- C4: after an insert, checkpoint field update, checkpoint delete or
destination delete, checkpoints sharing a city occupy a contiguous index
range and, within one city group, appear in non-decreasing
`(day, startTime)` order.  Inserts and field updates re-sort and establish
this outright; the delete operations only filter, so they preserve it. -/
theorem C4_city_grouping (dist : Checkpoint → Checkpoint → ℚ) (op : EngineOp) (t : Trip)
    (hop : sortMaintainingOp op) (hinv : cityInv t.checkpoints) :
    cityInv (applyEngineOp dist op t).checkpoints := by
  obtain ⟨hc, hs⟩ := hinv
  cases op with
  | insertCp newCp => exact cityInv_regroup _
  | updatePin cpId f => exact cityInv_regroup _
  | deleteCp id =>
    exact ⟨cityContiguous_of_sublist (List.filter_sublist _) hc,
           cityGroupSorted_of_sublist (List.filter_sublist _) hs⟩
  | deleteDest cityName =>
    exact ⟨cityContiguous_of_sublist (List.filter_sublist _) hc,
           cityGroupSorted_of_sublist (List.filter_sublist _) hs⟩
  | moveCp id delta => exact hop.elim
  | moveDest cityName delta => exact hop.elim
  | updateSeg fromId toId f => exact hop.elim

/-- C4 witness: deleting an unknown checkpoint id from a one-checkpoint
trip keeps the (trivially grouped) invariant. -/
theorem C4_city_grouping_witness :
    sortMaintainingOp (.deleteCp "zz") ∧
    cityInv [sampleCp "a" "X"] ∧
    cityInv ((applyEngineOp (fun _ _ => 0) (.deleteCp "zz")
      (mkTrip [sampleCp "a" "X"] [])).checkpoints) := by
  have hinv : cityInv [sampleCp "a" "X"] := by
    constructor
    · intro a b c hsub _
      have := hsub.length_le
      simp at this
    · exact List.pairwise_singleton _ _
  exact ⟨trivial, hinv, C4_city_grouping (fun _ _ => 0) (.deleteCp "zz")
    (mkTrip [sampleCp "a" "X"] []) trivial hinv⟩

/-- C5: a segment duration edit with both endpoints present recomputes the
"to" checkpoint: its start time becomes the "from" checkpoint's end time
(falling back to its start time, then 09:00) plus the duration, wrapped to
a time of day; its day becomes `from.day + ⌊totalMinutes / 1440⌋`; its end
time is the arrival plus its own dwell time; and every checkpoint at a
later index has the day delta (new minus old "to" day) added, while
earlier checkpoints are untouched. -/
theorem C5_duration_cascade (fromId toId : String) (f : SegForm) (prev : Trip)
    (fromIdx toIdx : ℕ)
    (hf : prev.checkpoints.findIdx? (fun c => decide (c.id = fromId)) = some fromIdx)
    (ht : prev.checkpoints.findIdx? (fun c => decide (c.id = toId)) = some toIdx)
    (htlt : toIdx < prev.checkpoints.length) :
    (let d := jsOrQ (parseFloatJs f.durationHours) 0
     let fromCp := prev.checkpoints.getD fromIdx dfltCp
     let toCp := prev.checkpoints.getD toIdx dfltCp
     let total : ℚ :=
       ((timeToMinutes (jsOrT fromCp.endTime (jsOrT fromCp.startTime (.hm 9 0)))) : ℚ) + d * 60
     let newDay : ℤ := fromCp.day + ⌊total / 1440⌋
     let res := updateSegmentFields fromId toId f prev
     res.checkpoints.length = prev.checkpoints.length ∧
     res.checkpoints.getD toIdx dfltCp =
       { toCp with day := newDay
                   startTime := minutesToTime total
                   endTime := minutesToTime (total + toCp.timeSpentHours * 60) } ∧
     (∀ i, toIdx < i → i < prev.checkpoints.length →
       res.checkpoints.getD i dfltCp =
         { prev.checkpoints.getD i dfltCp with
             day := (prev.checkpoints.getD i dfltCp).day + (newDay - toCp.day) }) ∧
     (∀ i, i < toIdx → res.checkpoints.getD i dfltCp = prev.checkpoints.getD i dfltCp)) := by
  simp only [updateSegmentFields, hf, ht]
  refine ⟨by rw [mapWithIndex_length], ?_, ?_, ?_⟩
  · rw [mapWithIndex_getD _ _ dfltCp 0 _ toIdx htlt]
    simp only [Nat.zero_add, if_true]
  · intro i hgt hlt
    rw [mapWithIndex_getD _ _ dfltCp 0 _ i hlt]
    simp only [Nat.zero_add]
    rw [if_neg (by omega), if_pos hgt]
  · intro i hlt2
    rw [mapWithIndex_getD _ _ dfltCp 0 _ i (by omega)]
    simp only [Nat.zero_add]
    rw [if_neg (by omega), if_neg (by omega)]

/-- Checkpoint A of the C5 example: ends 18:00 on day 1. -/
def wcpA : Checkpoint := { sampleCp "a" "X" with endTime := .hm 18 0, day := 1 }

/-- Checkpoint B of the C5 example. -/
def wcpB : Checkpoint := { sampleCp "b" "X" with day := 1, timeSpentHours := 2 }

/-- The C5 example trip. -/
def wTrip5 : Trip := mkTrip [wcpA, wcpB] []

/-- A segment form with a given duration value for the C5 example. -/
def wForm (d : ℚ) : SegForm :=
  { fromId := "a", toId := "b", mode := .TRAIN, distanceKm := 10,
    durationHours := .num d, cost := .num 0, safetyNote := "" }

/-- C5 witness: with A ending 18:00 day 1, a 3 h duration makes B start
21:00 on day 1, and an 8 h duration makes B start 02:00 on day 2. -/
theorem C5_duration_cascade_witness :
    wTrip5.checkpoints.findIdx? (fun c => decide (c.id = "a")) = some 0 ∧
    wTrip5.checkpoints.findIdx? (fun c => decide (c.id = "b")) = some 1 ∧
    ((updateSegmentFields "a" "b" (wForm 3) wTrip5).checkpoints.getD 1 dfltCp).startTime = .hm 21 0 ∧
    ((updateSegmentFields "a" "b" (wForm 3) wTrip5).checkpoints.getD 1 dfltCp).day = 1 ∧
    ((updateSegmentFields "a" "b" (wForm 8) wTrip5).checkpoints.getD 1 dfltCp).startTime = .hm 2 0 ∧
    ((updateSegmentFields "a" "b" (wForm 8) wTrip5).checkpoints.getD 1 dfltCp).day = 2 := by
  have hf : wTrip5.checkpoints.findIdx? (fun c => decide (c.id = "a")) = some 0 := by decide
  have ht : wTrip5.checkpoints.findIdx? (fun c => decide (c.id = "b")) = some 1 := by decide
  have h3 := C5_duration_cascade "a" "b" (wForm 3) wTrip5 0 1 hf ht (by decide)
  have h8 := C5_duration_cascade "a" "b" (wForm 8) wTrip5 0 1 hf ht (by decide)
  obtain ⟨-, hto3, -, -⟩ := h3
  obtain ⟨-, hto8, -, -⟩ := h8
  have hd3 : jsOrQ (parseFloatJs (wForm 3).durationHours) 0 = 3 := by
    simp [wForm, parseFloatJs, jsOrQ]
  have hd8 : jsOrQ (parseFloatJs (wForm 8).durationHours) 0 = 8 := by
    simp [wForm, parseFloatJs, jsOrQ]
  have hstart : (timeToMinutes (jsOrT (wTrip5.checkpoints.getD 0 dfltCp).endTime
      (jsOrT (wTrip5.checkpoints.getD 0 dfltCp).startTime (.hm 9 0))) : ℚ) = 1080 := by
    simp [wTrip5, mkTrip, wcpA, sampleCp, dfltCp, jsOrT, timeToMinutes]
  have m1260 : minutesToTime 1260 = .hm 21 0 := by
    have hr : jsRem (1260 : ℚ) (24 * 60) = 1260 := by
      rw [jsRem, ratTrunc]
      norm_num
    have hfl : ⌊(1260 : ℚ)⌋ = 1260 := by norm_num
    simp only [minutesToTime, hr, hfl]
    decide
  have m1560 : minutesToTime 1560 = .hm 2 0 := by
    have hr : jsRem (1560 : ℚ) (24 * 60) = 120 := by
      rw [jsRem, ratTrunc]
      norm_num
    have hfl : ⌊(120 : ℚ)⌋ = 120 := by norm_num
    simp only [minutesToTime, hr, hfl]
    decide
  have hday0 : (wTrip5.checkpoints.getD 0 dfltCp).day = 1 := by decide
  refine ⟨hf, ht, ?_, ?_, ?_, ?_⟩
  · rw [hto3]
    simp only [hd3, hstart]
    show minutesToTime ((1080 : ℚ) + 3 * 60) = .hm 21 0
    rw [show (1080 : ℚ) + 3 * 60 = 1260 by norm_num]
    exact m1260
  · rw [hto3]
    simp only [hd3, hstart]
    show (wTrip5.checkpoints.getD 0 dfltCp).day + ⌊((1080 : ℚ) + 3 * 60) / 1440⌋ = 1
    rw [hday0, show (1080 : ℚ) + 3 * 60 = 1260 by norm_num]
    norm_num
  · rw [hto8]
    simp only [hd8, hstart]
    show minutesToTime ((1080 : ℚ) + 8 * 60) = .hm 2 0
    rw [show (1080 : ℚ) + 8 * 60 = 1560 by norm_num]
    exact m1560
  · rw [hto8]
    simp only [hd8, hstart]
    show (wTrip5.checkpoints.getD 0 dfltCp).day + ⌊((1080 : ℚ) + 8 * 60) / 1440⌋ = 2
    rw [hday0, show (1080 : ℚ) + 8 * 60 = 1560 by norm_num]
    norm_num

/-- C6 (failing input): the claim says every operation given an unknown
reference is a value-level no-op.  `moveCheckpoint` and `deleteTrip` do
guard their lookups, but `moveDestination` checks only the target index:
with a city name that is not in the trip and `delta = 1`, `indexOf`
returns -1, the guard `0 ≤ -1 + 1 < #cities` passes, and the JS
destructuring swap stores `undefined` into slot 0 — so every checkpoint
of the first city is dropped instead of nothing happening. -/
theorem C6_unknown_reference_guards :
    moveCheckpoint (fun _ _ => 0) "a" (-1) (mkTrip [sampleCp "a" "A"] []) =
      mkTrip [sampleCp "a" "A"] [] ∧
    moveCheckpoint (fun _ _ => 0) "zz" 1 (mkTrip [sampleCp "a" "A"] []) =
      mkTrip [sampleCp "a" "A"] [] ∧
    deleteTrip "t1" { trips := [mkTrip [] []], activeTripId := "t1", past := [], future := [] } =
      { trips := [mkTrip [] []], activeTripId := "t1", past := [], future := [] } ∧
    (moveDestination (fun _ _ => 0) "B" 1 (mkTrip [sampleCp "a" "A"] [])).checkpoints = [] ∧
    (mkTrip [sampleCp "a" "A"] []).checkpoints ≠ [] := by
  refine ⟨by decide, by decide, by decide, by decide, by decide⟩

/-- Every application-level operation is either a strict no-op (the
rejected single-trip delete, or an insert with no trip at all) or first
pushes the pre-mutation trip list through `recordAction`, capping the
stack at 24 older entries and clearing the redo stack. -/
theorem applyOp_recorded (dist : Checkpoint → Checkpoint → ℚ) (op : AppOp) (s : AppState) :
    applyOp dist op s = s ∨
    ((applyOp dist op s).past = sliceLast 24 s.past ++ [s.trips] ∧
     (applyOp dist op s).future = []) := by
  cases op with
  | createTrip newId => exact Or.inr ⟨rfl, rfl⟩
  | deleteTripOp id =>
    by_cases h1 : s.trips.length = 1
    · left
      simp [applyOp, deleteTrip, h1]
    · right
      simp [applyOp, deleteTrip, h1, recordAction]
  | renameTrip newName => exact Or.inr ⟨rfl, rfl⟩
  | setStartDate d => exact Or.inr ⟨rfl, rfl⟩
  | addCp cpId nm lat lng city targetCity =>
    rcases hat : activeTrip s with _ | t
    · left
      simp [applyOp, hat]
    · right
      simp [applyOp, hat, updateActiveTrip, recordAction]
  | engine eop => exact Or.inr ⟨rfl, rfl⟩

theorem undo_sum_le {s : AppState} (h : s.past.length + s.future.length ≤ 25) :
    (undo s).past.length + (undo s).future.length ≤ 25 := by
  rw [undo]
  split
  · exact h
  · simp only [List.length_dropLast, List.length_cons]
    omega

theorem redo_sum_le {s : AppState} (h : s.past.length + s.future.length ≤ 25) :
    (redo s).past.length + (redo s).future.length ≤ 25 := by
  rw [redo]
  rcases hfu : s.future with _ | ⟨next, rest⟩
  · exact h
  · simp only [List.length_append, List.length_cons, List.length_nil]
    rw [hfu] at h
    simp only [List.length_cons] at h
    omega

theorem sliceLast_length_le (n : ℕ) (l : List α) : (sliceLast n l).length ≤ n := by
  rw [sliceLast, List.length_drop]
  omega

/-- C7: any mutating operation followed by `undo` restores the
pre-operation trip list, and `redo` right after that `undo` restores the
post-operation trip list; the history stacks jointly never exceed 25
snapshots, and a push onto a full 25-entry undo stack evicts the oldest
entry. -/
theorem C7_undo_redo_roundtrip_and_cap (dist : Checkpoint → Checkpoint → ℚ)
    (op : AppOp) (s : AppState) :
    (applyOp dist op s = s ∨
      ((undo (applyOp dist op s)).trips = s.trips ∧
       (redo (undo (applyOp dist op s))).trips = (applyOp dist op s).trips)) ∧
    (s.past.length + s.future.length ≤ 25 →
      ((applyOp dist op s).past.length + (applyOp dist op s).future.length ≤ 25 ∧
       (undo s).past.length + (undo s).future.length ≤ 25 ∧
       (redo s).past.length + (redo s).future.length ≤ 25)) ∧
    (s.past.length = 25 → applyOp dist op s ≠ s →
      (applyOp dist op s).past = s.past.tail ++ [s.trips]) := by
  refine ⟨?_, ?_, ?_⟩
  · rcases applyOp_recorded dist op s with h | ⟨hp, hf⟩
    · exact Or.inl h
    · right
      set res := applyOp dist op s with hres
      have hne : ¬ res.past.length = 0 := by
        rw [hp]
        simp
      have hu : undo res = { res with trips := res.past.getLastD []
                                      future := res.trips :: res.future
                                      past := res.past.dropLast } := by
        rw [undo, if_neg hne]
      have htr : (undo res).trips = s.trips := by
        rw [hu]
        show res.past.getLastD [] = s.trips
        rw [hp, List.getLastD_concat]
      refine ⟨htr, ?_⟩
      rw [hu]
      rw [redo]
  · intro h
    refine ⟨?_, undo_sum_le h, redo_sum_le h⟩
    rcases applyOp_recorded dist op s with heq | ⟨hp, hf⟩
    · rw [heq]
      exact h
    · rw [hp, hf]
      simp only [List.length_append, List.length_cons, List.length_nil]
      have := sliceLast_length_le 24 s.past
      omega
  · intro h25 hne
    rcases applyOp_recorded dist op s with heq | ⟨hp, hf⟩
    · exact absurd heq hne
    · rw [hp, sliceLast, h25]
      norm_num

/-- A full-history application state used by the C7 witness. -/
def wState : AppState :=
  { trips := [mkTrip [] []], activeTripId := "t1",
    past := List.replicate 25 [], future := [[]] }

/-- C7 witness: on a state whose undo stack already holds 25 snapshots, a
rename pushes the pre-state (evicting the oldest entry) and undo restores
the pre-rename trip list. -/
theorem C7_undo_redo_roundtrip_and_cap_witness :
    wState.past.length = 25 ∧
    applyOp (fun _ _ => 0) (.renameTrip "New") wState ≠ wState ∧
    (applyOp (fun _ _ => 0) (.renameTrip "New") wState).past =
      wState.past.tail ++ [wState.trips] ∧
    (undo (applyOp (fun _ _ => 0) (.renameTrip "New") wState)).trips = wState.trips := by
  have h := C7_undo_redo_roundtrip_and_cap (fun _ _ => 0) (.renameTrip "New") wState
  have h25 : wState.past.length = 25 := by decide
  have hne : applyOp (fun _ _ => 0) (.renameTrip "New") wState ≠ wState := by decide
  refine ⟨h25, hne, h.2.2 h25 hne, ?_⟩
  rcases h.1 with heq | hrt
  · exact absurd heq hne
  · exact hrt.1

/-- C10: every mutating operation that actually proceeds records the
pre-mutation trip list as the newest undo entry and empties the redo
stack, so a `redo` issued right after a fresh mutation (no intervening
undo) is a no-op. -/
theorem C10_mutation_clears_redo (dist : Checkpoint → Checkpoint → ℚ)
    (op : AppOp) (s : AppState) :
    applyOp dist op s = s ∨
    ((applyOp dist op s).future = [] ∧
     (applyOp dist op s).past.getLast? = some s.trips ∧
     redo (applyOp dist op s) = applyOp dist op s) := by
  rcases applyOp_recorded dist op s with h | ⟨hp, hf⟩
  · exact Or.inl h
  · right
    refine ⟨hf, ?_, ?_⟩
    · rw [hp]
      exact List.getLast?_concat _
    · rw [redo, hf]

/-- C8: "HH:MM" parses to minutes since midnight and the empty string to
0; the duration of a start/end pair is `(end - start) / 60` rounded to one
decimal hour, with 1440 minutes added to the end first exactly when it is
numerically before the start (overnight wrap), and 0 when either side is
empty; and the minutes-to-time conversion is invariant under adding a full
day, so day-level overflow is carried only by the separate day field. -/
theorem C8_time_utilities :
    (∀ h m : ℤ, timeToMinutes (.hm h m) = h * 60 + m) ∧
    timeToMinutes .empty = 0 ∧
    (∀ h1 m1 h2 m2 : ℤ, h2 * 60 + m2 < h1 * 60 + m1 →
      calculateDuration (.hm h1 m1) (.hm h2 m2) =
        (jsRound ((((h2 * 60 + m2 + 1440) - (h1 * 60 + m1) : ℤ) : ℚ) / 60 * 10) : ℚ) / 10) ∧
    (∀ h1 m1 h2 m2 : ℤ, ¬(h2 * 60 + m2 < h1 * 60 + m1) →
      calculateDuration (.hm h1 m1) (.hm h2 m2) =
        (jsRound ((((h2 * 60 + m2) - (h1 * 60 + m1) : ℤ) : ℚ) / 60 * 10) : ℚ) / 10) ∧
    (∀ s : TimeStr, calculateDuration .empty s = 0 ∧ calculateDuration s .empty = 0) ∧
    (∀ t : ℚ, 0 ≤ t → minutesToTime (t + 1440) = minutesToTime t) := by
  have hwrap : ∀ t : ℚ, 0 ≤ t → jsRem (t + 1440) (24 * 60) = jsRem t (24 * 60) := by
    intro t ht
    rw [jsRem, jsRem, ratTrunc, ratTrunc]
    have h0 : (0 : ℚ) < 24 * 60 := by norm_num
    have h1 : (0 : ℚ) ≤ t / (24 * 60) := div_nonneg ht (le_of_lt h0)
    have h2 : (0 : ℚ) ≤ (t + 1440) / (24 * 60) := div_nonneg (by linarith) (le_of_lt h0)
    rw [if_pos h1, if_pos h2]
    have hsplit : (t + 1440) / (24 * 60) = t / (24 * 60) + 1 := by
      field_simp
      ring
    rw [hsplit, Int.floor_add_one]
    push_cast
    ring
  refine ⟨fun h m => rfl, rfl, ?_, ?_, ?_, ?_⟩
  · intro h1 m1 h2 m2 hlt
    rw [calculateDuration, if_neg (by simp)]
    simp only [timeToMinutes]
    rw [if_pos hlt]
    push_cast
    ring_nf
  · intro h1 m1 h2 m2 hge
    rw [calculateDuration, if_neg (by simp)]
    simp only [timeToMinutes]
    rw [if_neg hge]
    push_cast
    ring_nf
  · intro s
    constructor
    · rw [calculateDuration, if_pos (Or.inl rfl)]
    · rw [calculateDuration, if_pos (Or.inr rfl)]
  · intro t ht
    simp only [minutesToTime, hwrap t ht]

/-- C8 witness: "09:30" is 570 minutes; 22:00 to 01:00 wraps overnight to
a 3-hour duration; adding a full day to 1500 minutes leaves the rendered
time of day unchanged. -/
theorem C8_time_utilities_witness :
    timeToMinutes (.hm 9 30) = 570 ∧
    calculateDuration (.hm 22 0) (.hm 1 0) = 3 ∧
    ((1 : ℤ) * 60 + 0 < 22 * 60 + 0) ∧
    minutesToTime (1500 + 1440) = minutesToTime 1500 ∧ (0 : ℚ) ≤ 1500 := by
  obtain ⟨hparse, -, hwrapdur, -, -, hday⟩ := C8_time_utilities
  refine ⟨?_, ?_, by decide, hday 1500 (by norm_num), by norm_num⟩
  · rw [hparse 9 30]
    norm_num
  · rw [hwrapdur 22 0 1 0 (by decide)]
    rw [show ((1 * 60 + 0 + 1440) - (22 * 60 + 0) : ℤ) = 180 by decide]
    rw [show (((180 : ℤ) : ℚ) / 60 * 10) = 30 by norm_num]
    rw [show jsRound 30 = 30 by rw [jsRound]; norm_num]
    norm_num

/-- A stored segment between checkpoints a and b, used by the C9 inputs. -/
def wSeg9 : RouteSegment :=
  { fromId := "a", toId := "b", mode := .BUS, distanceKm := 1,
    durationHours := 1, cost := .num 5, safetyNote := "" }

/-- A two-checkpoint trip containing `wSeg9`. -/
def wTrip9 : Trip := mkTrip [sampleCp "a" "X", sampleCp "b" "X"] [wSeg9]

/-- A checkpoint-less trip still containing `wSeg9` (orphaned segment). -/
def wTripOrphan : Trip := mkTrip [] [wSeg9]

/-- A segment edit form holding non-numeric duration and cost input. -/
def wBadSegForm : SegForm :=
  { fromId := "a", toId := "b", mode := .TRAIN, distanceKm := 1,
    durationHours := .str "xyz", cost := .str "abc", safetyNote := "" }

/-- A checkpoint edit form holding non-numeric day, cost, and dwell input. -/
def wBadPinForm : PinForm :=
  { id := "a", name := "N", lat := 0, lng := 0, type := .SIGHTSEEING,
    timeSpentHours := .str "tt", startTime := .empty, endTime := .empty,
    day := .str "dd", cost := .str "cc", notes := "", city := "X" }

/-- C9 (counterexample): in the endpoints-found branch of the segment
save, a non-numeric cost input is NOT coerced to 0 — `{ ...localForm,
durationHours }` stores the raw form cost, so the stored segment's cost is
the string "abc" rather than the claimed safe default 0. -/
theorem C9_segment_cost_not_coerced :
    parseIntJs (.str "abc") = none ∧
    ((updateSegmentFields "a" "b" wBadSegForm wTrip9).segments.getD 0 dfltSeg).cost =
      .str "abc" ∧
    JsVal.str "abc" ≠ JsVal.num 0 := by
  refine ⟨by decide, by decide, by decide⟩

/-- C9 (amended): non-numeric numeric input is coerced locally and the
edit still succeeds — day to 1, cost to 0 and dwell hours to 0 in the
checkpoint save, and cost to 0 and duration to 0 in the orphan branch of
the segment save; in the endpoints-found branch of the segment save only
the duration is coerced (to 0) while the raw cost value is stored
unchanged. -/
theorem C9_numeric_coercion_amended :
    (∀ f : PinForm, parseIntJs f.day = none → parseIntJs f.cost = none →
      parseFloatJs f.timeSpentHours = none →
      (sanitizePin f).day = 1 ∧ (sanitizePin f).cost = 0 ∧
      (sanitizePin f).timeSpentHours = 0) ∧
    (∀ (fromId toId : String) (f : SegForm) (prev : Trip) (i : ℕ),
      (prev.checkpoints.findIdx? (fun c => decide (c.id = fromId)) = none ∨
       prev.checkpoints.findIdx? (fun c => decide (c.id = toId)) = none) →
      i < prev.segments.length →
      (prev.segments.getD i dfltSeg).fromId = fromId →
      (prev.segments.getD i dfltSeg).toId = toId →
      parseFloatJs f.durationHours = none → parseIntJs f.cost = none →
      ((updateSegmentFields fromId toId f prev).segments.getD i dfltSeg).cost = .num 0 ∧
      ((updateSegmentFields fromId toId f prev).segments.getD i dfltSeg).durationHours = 0) ∧
    (∀ (fromId toId : String) (f : SegForm) (prev : Trip) (i fi ti : ℕ),
      prev.checkpoints.findIdx? (fun c => decide (c.id = fromId)) = some fi →
      prev.checkpoints.findIdx? (fun c => decide (c.id = toId)) = some ti →
      i < prev.segments.length →
      (prev.segments.getD i dfltSeg).fromId = fromId →
      (prev.segments.getD i dfltSeg).toId = toId →
      parseFloatJs f.durationHours = none →
      ((updateSegmentFields fromId toId f prev).segments.getD i dfltSeg).cost = f.cost ∧
      ((updateSegmentFields fromId toId f prev).segments.getD i dfltSeg).durationHours = 0) := by
  refine ⟨?_, ?_, ?_⟩
  · intro f hday hcost hdw
    rw [sanitizePin]
    simp [hday, hcost, hdw, jsOrI, jsOrQ]
  · intro fromId toId f prev i hor hi hfrom hto hdur hcost
    have hmain : ((updateSegmentFields fromId toId f prev).segments.getD i dfltSeg) =
        segFromFormB f := by
      rcases h1 : prev.checkpoints.findIdx? (fun c => decide (c.id = fromId)) with _ | fi
      · simp only [updateSegmentFields, h1]
        rw [getD_map_of_lt _ _ dfltSeg _ i hi, if_pos ⟨hfrom, hto⟩]
      · rcases h2 : prev.checkpoints.findIdx? (fun c => decide (c.id = toId)) with _ | ti
        · simp only [updateSegmentFields, h1, h2]
          rw [getD_map_of_lt _ _ dfltSeg _ i hi, if_pos ⟨hfrom, hto⟩]
        · rcases hor with h | h
          · rw [h1] at h
            cases h
          · rw [h2] at h
            cases h
    rw [hmain, segFromFormB]
    simp [hdur, hcost, jsOrI, jsOrQ]
  · intro fromId toId f prev i fi ti h1 h2 hi hfrom hto hdur
    have hmain : ((updateSegmentFields fromId toId f prev).segments.getD i dfltSeg) =
        segFromFormA f (jsOrQ (parseFloatJs f.durationHours) 0) := by
      simp only [updateSegmentFields, h1, h2]
      rw [getD_map_of_lt _ _ dfltSeg _ i hi, if_pos ⟨hfrom, hto⟩]
    rw [hmain, segFromFormA]
    simp [hdur, jsOrQ]

/-- C9 witness: the non-numeric forms coerce as amended — day 1 / cost 0 /
dwell 0 for the checkpoint form, cost 0 and duration 0 for the orphaned
segment, and raw cost with duration 0 when both endpoints exist. -/
theorem C9_numeric_coercion_amended_witness :
    parseIntJs wBadPinForm.day = none ∧
    ((sanitizePin wBadPinForm).day = 1 ∧ (sanitizePin wBadPinForm).cost = 0 ∧
     (sanitizePin wBadPinForm).timeSpentHours = 0) ∧
    (((updateSegmentFields "a" "b" wBadSegForm wTripOrphan).segments.getD 0 dfltSeg).cost =
      .num 0 ∧
     ((updateSegmentFields "a" "b" wBadSegForm wTripOrphan).segments.getD 0 dfltSeg).durationHours = 0) ∧
    (((updateSegmentFields "a" "b" wBadSegForm wTrip9).segments.getD 0 dfltSeg).cost =
      .str "abc" ∧
     ((updateSegmentFields "a" "b" wBadSegForm wTrip9).segments.getD 0 dfltSeg).durationHours = 0) := by
  obtain ⟨hpin, horphan, hfound⟩ := C9_numeric_coercion_amended
  refine ⟨by decide, hpin wBadPinForm (by decide) (by decide) (by decide), ?_, ?_⟩
  · exact horphan "a" "b" wBadSegForm wTripOrphan 0 (Or.inl (by decide)) (by decide)
      (by decide) (by decide) (by decide) (by decide)
  · have h := hfound "a" "b" wBadSegForm wTrip9 0 0 1 (by decide) (by decide) (by decide)
      (by decide) (by decide) (by decide)
    exact ⟨h.1.trans (by decide), h.2⟩

/-- C1 witness: inserting a checkpoint into a one-checkpoint trip (whose
empty segment list trivially satisfies the invariant) yields a trip
satisfying the segment count and adjacency invariant. -/
theorem C1_segment_count_and_adjacency_witness :
    EngineOp.wfForm (.insertCp (sampleCp "c" "Y")) ∧
    segInv (mkTrip [sampleCp "a" "X"] []) ∧
    segInv (applyEngineOp (fun _ _ => 7) (.insertCp (sampleCp "c" "Y"))
      (mkTrip [sampleCp "a" "X"] [])) := by
  have hseg : segInv (mkTrip [sampleCp "a" "X"] []) := by
    refine ⟨rfl, ?_⟩
    intro i hi
    simp only [mkTrip, List.length_cons, List.length_nil] at hi
    omega
  exact ⟨trivial, hseg, C1_segment_count_and_adjacency (fun _ _ => 7)
    (.insertCp (sampleCp "c" "Y")) _ trivial hseg⟩

end NomadRail
